import Mathlib

/-!
Verification development for the SynapseNotify mailbox engine
(src/synapsenotify.py). The Python code is shallowly embedded: JSON
documents become the inductive type J, the alerts directory becomes an
association list from file names to optional parsed documents, and each
method of the SynapseNotify class becomes a Lean function threading that
state explicitly. Fallible paths (uncaught Python exceptions) are
modelled with Except PyExc.
-/

/-- Uncaught Python exception kinds that can escape the mailbox code. -/
inductive PyExc where
  | typeError
  | attributeError
deriving DecidableEq, Repr

/-- Parsed JSON documents, as produced by json.load. Numbers are modelled
as integers (no claim depends on floats); object field lists stand for
Python dicts, whose keys are unique after parsing. -/
inductive J where
  | null
  | b (x : Bool)
  | n (x : Int)
  | s (x : String)
  | arr (xs : List J)
  | obj (fields : List (String × J))

mutual

/-- Python repr of a parsed JSON value (str escaping inside string
literals is not reproduced; no claim depends on it). -/
def pyRepr : J → String
  | .null => "None"
  | .b true => "True"
  | .b false => "False"
  | .n i => toString i
  | .s t => "\x27" ++ t ++ "\x27"
  | .arr xs => "[" ++ String.intercalate ", " (pyReprList xs) ++ "]"
  | .obj fs => "\x7b" ++ String.intercalate ", " (pyReprObj fs) ++ "\x7d"

def pyReprList : List J → List String
  | [] => []
  | x :: xs => pyRepr x :: pyReprList xs

def pyReprObj : List (String × J) → List String
  | [] => []
  | (k, v) :: fs => ("\x27" ++ k ++ "\x27: " ++ pyRepr v) :: pyReprObj fs

end

/-- Python str() of a parsed JSON value. -/
def pyStr : J → String
  | .s t => t
  | j => pyRepr j

/-- Python s.replace(pat, repl) on character lists: leftmost
non-overlapping occurrences of pat are replaced by repl. After a match
the remaining pat.length - 1 matched characters are consumed through the
skip counter, which keeps the recursion structural on the list. The pat
arguments used in the source are all nonempty. -/
def pyReplaceGo (pat repl : List Char) : Nat → List Char → List Char
  | _, [] => []
  | skip+1, _ :: rest => pyReplaceGo pat repl skip rest
  | 0, c :: rest =>
    if pat.isPrefixOf (c :: rest) then
      repl ++ pyReplaceGo pat repl (pat.length - 1) rest
    else
      c :: pyReplaceGo pat repl 0 rest

def pyReplaceChars (pat repl s : List Char) : List Char :=
  pyReplaceGo pat repl 0 s

/-- Python s.replace(pat, repl) on strings. -/
def pyReplace (s pat repl : String) : String :=
  String.mk (pyReplaceChars pat.data repl.data s.data)

/-- Python s.upper(); the agent names and priorities in play are ASCII. -/
def pyUpper (s : String) : String :=
  String.mk (s.data.map Char.toUpper)

/-- Python s[:n] slicing. -/
def pyTake (s : String) (n : Nat) : String :=
  String.mk (s.data.take n)

/-- Agent-name normalization performed by create_alert:
to_agent.upper().replace("CURSOR_", "").replace("CLI_", ""). -/
def normalizeAgent (name : String) : String :=
  pyReplace (pyReplace (pyUpper name) "CURSOR_" "") "CLI_" ""

/-- File name of an agent mailbox, from _get_alert_file. -/
def fileKey (agent : String) : String :=
  pyReplace (pyUpper agent) " " "_" ++ "_alerts.json"

/-- The values of the Priority enum. -/
def validPriorities : List String := ["LOW", "NORMAL", "HIGH", "CRITICAL"]

/-- Priority validation in create_alert: Priority(priority.upper()).value
with ValueError falling back to NORMAL. -/
def validatePriority (p : String) : String :=
  if pyUpper p ∈ validPriorities then pyUpper p else "NORMAL"

/-- One notification record, mirroring the Alert dataclass. -/
structure Alert where
  id : String
  timestamp : String
  from_agent : String
  to_agent : String
  subject : String
  preview : String
  source_file : String
  priority : String
  read : Bool
deriving DecidableEq, Repr

/-- Final truncation step of _extract_preview: a preview of length at
least 100 is replaced by its first 97 characters plus "...". -/
def ellipsize (p : String) : String :=
  if 100 ≤ p.length then pyTake p 97 ++ "..." else p

/-- Field selection of _extract_preview on dict content:
content.get(announcement, content.get(message, content.get(summary, fallback))). -/
def contentField (fs : List (String × J)) : Option J :=
  (fs.lookup "announcement" <|> fs.lookup "message") <|> fs.lookup "summary"

/-- Preview derivation, from _extract_preview. Model restriction: when the
selected dict field is present but not a string, the model reports a
TypeError, while CPython only raises once len() or string concatenation
is reached; no theorem below touches that branch. -/
def extractPreview : J → Except PyExc String
  | .s t => .ok (ellipsize (pyTake t 100))
  | .obj fs =>
    match contentField fs with
    | some (.s v) => .ok (ellipsize v)
    | some _ => .error .typeError
    | none => .ok (ellipsize (pyTake (pyStr (.obj fs)) 100))
  | j => .ok (ellipsize (pyTake (pyStr j) 100))

/-- The eight field names the Alert dataclass requires. -/
def alertFields : List String :=
  ["id", "timestamp", "from_agent", "to_agent", "subject", "preview",
   "source_file", "priority"]

/-- Coercion of a JSON value stored in a string-typed Alert field. CPython
stores the raw value; the model stringifies it. Mailbox files written by
_save_alerts only ever hold strings here, so the approximation is
invisible to every theorem below. -/
def jToStr : J → String
  | .s t => t
  | j => pyStr j

/-- Python truthiness of a JSON value, as used on the read field. -/
def jTruthy : J → Bool
  | .null => false
  | .b x => x
  | .n i => i != 0
  | .s t => !t.isEmpty
  | .arr xs => !xs.isEmpty
  | .obj fs => !fs.isEmpty

/-- Alert.from_dict(a) = Alert(**a): succeeds exactly when the keys are
the required dataclass fields plus the optional read; a wrong key set
raises TypeError, and so does a non-dict argument. -/
def alertFromDict : J → Except PyExc Alert
  | .obj fs =>
    let keys := fs.map Prod.fst
    if (alertFields.all fun k => keys.contains k) &&
       (keys.all fun k => alertFields.contains k || k == "read") then
      .ok { id := jToStr ((fs.lookup "id").getD .null),
            timestamp := jToStr ((fs.lookup "timestamp").getD .null),
            from_agent := jToStr ((fs.lookup "from_agent").getD .null),
            to_agent := jToStr ((fs.lookup "to_agent").getD .null),
            subject := jToStr ((fs.lookup "subject").getD .null),
            preview := jToStr ((fs.lookup "preview").getD .null),
            source_file := jToStr ((fs.lookup "source_file").getD .null),
            priority := jToStr ((fs.lookup "priority").getD .null),
            read := match fs.lookup "read" with
                    | some v => jTruthy v
                    | none => false }
    else .error .typeError
  | _ => .error .typeError

/-- List-comprehension over alert dicts: stops at the first failing
element, as the Python comprehension does. -/
def alertsFromList : List J → Except PyExc (List Alert)
  | [] => .ok []
  | x :: xs => do
    let a ← alertFromDict x
    let rest ← alertsFromList xs
    .ok (a :: rest)

/-- Body of _load_alerts once a JSON document has been obtained:
[Alert.from_dict(a) for a in data.get("alerts", [])]. Iterating a string
or a dict yields strings (characters or keys), each of which makes
Alert(**x) raise TypeError unless the iterable is empty; non-iterables
raise TypeError at the for; data.get on a non-dict raises AttributeError. -/
def parseAlertsDoc : J → Except PyExc (List Alert)
  | .obj fs =>
    match (fs.lookup "alerts").getD (.arr []) with
    | .arr xs => alertsFromList xs
    | .s t => if t.isEmpty then .ok [] else .error .typeError
    | .obj fs2 => if fs2.isEmpty then .ok [] else .error .typeError
    | _ => .error .typeError
  | _ => .error .attributeError

/-- Result of reading one mailbox file: none when the file does not
exist, some none when it exists but is not valid JSON (JSONDecodeError),
some (some j) when it parses to j. -/
def loadAlertsFromFile : Option (Option J) → Except PyExc (List Alert)
  | none => .ok []
  | some none => .ok []
  | some (some j) => parseAlertsDoc j

/-- The alerts directory: file name to optional parsed document; a
binding to none is a file with non-JSON content. -/
abbrev FS := List (String × Option J)

def fsRead (fs : FS) (key : String) : Option (Option J) :=
  fs.lookup key

def fsWrite : FS → String → Option J → FS
  | [], key, v => [(key, v)]
  | (k, w) :: rest, key, v =>
    if k == key then (key, v) :: rest else (k, w) :: fsWrite rest key v

/-- SynapseNotify._load_alerts. -/
def loadAlerts (fs : FS) (agent : String) : Except PyExc (List Alert) :=
  loadAlertsFromFile (fsRead fs (fileKey agent))

/-- JSON serialization of one alert, as _save_alerts writes it. -/
def Alert.toJ (a : Alert) : J :=
  .obj [("id", .s a.id), ("timestamp", .s a.timestamp),
        ("from_agent", .s a.from_agent), ("to_agent", .s a.to_agent),
        ("subject", .s a.subject), ("preview", .s a.preview),
        ("source_file", .s a.source_file), ("priority", .s a.priority),
        ("read", .b a.read)]

/-- The envelope document _save_alerts writes; now is the wall-clock
reading for last_updated, threaded as an explicit argument. -/
def saveDoc (agent now : String) (alerts : List Alert) : J :=
  .obj [("agent", .s (pyUpper agent)),
        ("last_updated", .s now),
        ("alert_count", .n alerts.length),
        ("unread_count", .n (alerts.filter fun a => !a.read).length),
        ("alerts", .arr (alerts.map Alert.toJ))]

/-- SynapseNotify._save_alerts. -/
def saveAlerts (fs : FS) (agent now : String) (alerts : List Alert) : FS :=
  fsWrite fs (fileKey agent) (some (saveDoc agent now alerts))

deriving instance DecidableEq for Except

/-- Observable state of one SynapseNotify instance: the alerts directory
plus the number of terminal-bell triggers fired so far. -/
structure NotifyState where
  fs : FS
  bells : Nat

/-- SynapseNotify.create_alert. The wall clock and the generated alert id
are threaded as the explicit inputs now and newId (the source derives the
id from an md5 of the clock reading). A duplicate source_file in the
target mailbox returns the unsaved alert with the state untouched; a
fresh one appends, saves and rings the bell. -/
def createAlert (st : NotifyState) (newId now : String)
    (to_agent from_agent subject : String) (content : J)
    (source_file priority : String) :
    Except PyExc (Alert × NotifyState) := do
  let to_a := normalizeAgent to_agent
  let from_a := normalizeAgent from_agent
  let pr := validatePriority priority
  let pv ← extractPreview content
  let alert : Alert :=
    { id := newId, timestamp := now, from_agent := from_a, to_agent := to_a,
      subject := subject, preview := pv, source_file := source_file,
      priority := pr, read := false }
  let alerts ← loadAlerts st.fs to_a
  if alerts.any fun a => a.source_file == source_file then
    .ok (alert, st)
  else
    .ok (alert, { fs := saveAlerts st.fs to_a now (alerts ++ [alert]),
                  bells := st.bells + 1 })

/-- Values looked up where Python will call a string method; a non-string
raises AttributeError there. -/
def asStr : J → Except PyExc String
  | .s t => .ok t
  | _ => .error .attributeError

/-- The broadcast agent list used for ALL and TEAM_BRAIN recipients. -/
def BROADCAST_AGENTS : List String :=
  ["FORGE", "ATLAS", "CLIO", "NEXUS", "IRIS", "PORTER"]

/-- Merge of the to and cc message fields, from
create_alerts_from_synapse_message: a string becomes a singleton list;
to_list.extend(cc_list) raises AttributeError when to is neither string
nor list, iterates a mapping cc by its keys, and raises TypeError on a
non-iterable cc. -/
def mergedRecipients (m : List (String × J)) : Except PyExc (List J) := do
  let toJ := (m.lookup "to").getD (.arr [])
  let ccJ := (m.lookup "cc").getD (.arr [])
  let toL ← match toJ with
    | .s t => Except.ok [J.s t]
    | .arr xs => Except.ok xs
    | _ => Except.error PyExc.attributeError
  let ccL ← match ccJ with
    | .s t => Except.ok [J.s t]
    | .arr xs => Except.ok xs
    | .obj fs2 => Except.ok (fs2.map fun kv => J.s kv.1)
    | _ => Except.error PyExc.typeError
  .ok (toL ++ ccL)

/-- One create_alert call per agent of a list, threading the state and
collecting the created alerts in order. -/
def createForAgents (newId now fromS subject : String) (body : J)
    (srcFile prS : String) :
    NotifyState → List String → Except PyExc (List Alert × NotifyState)
  | st, [] => .ok ([], st)
  | st, agent :: rest => do
    let (a, st2) ← createAlert st newId now agent fromS subject body srcFile prS
    let (as2, st3) ← createForAgents newId now fromS subject body srcFile prS st2 rest
    .ok (a :: as2, st3)

/-- The recipient loop of create_alerts_from_synapse_message. Per
recipient: recipient.upper() requires a string; a broadcast alias (ALL or
TEAM_BRAIN, case-insensitively) expands to BROADCAST_AGENTS, anything
else gets one create_alert; from and priority hit .upper() inside
create_alert, so non-strings raise AttributeError there. -/
def fanoutLoop (newId now : String) (fromJ : J) (subject : String)
    (body : J) (srcFile : String) (prJ : J) :
    NotifyState → List J → Except PyExc (List Alert × NotifyState)
  | st, [] => .ok ([], st)
  | st, r :: rest => do
    let rS ← asStr r
    let fromS ← asStr fromJ
    let prS ← asStr prJ
    let (batch, st2) ←
      if pyUpper rS == "ALL" || pyUpper rS == "TEAM_BRAIN" then
        createForAgents newId now fromS subject body srcFile prS st BROADCAST_AGENTS
      else
        createForAgents newId now fromS subject body srcFile prS st [rS]
    let (restAlerts, st3) ← fanoutLoop newId now fromJ subject body srcFile prJ st2 rest
    .ok (batch ++ restAlerts, st3)

/-- SynapseNotify.create_alerts_from_synapse_message. The message file is
given as in loadAlertsFromFile: none = missing (FileNotFoundError
caught), some none = unreadable JSON (JSONDecodeError caught), both
logged and answered with an empty list; msg.get on a non-dict document
raises AttributeError. -/
def createAlertsFromSynapseMessage (st : NotifyState) (newId now : String)
    (messagePath : String) (file : Option (Option J)) :
    Except PyExc (List Alert × NotifyState) :=
  match file with
  | none => .ok ([], st)
  | some none => .ok ([], st)
  | some (some (.obj m)) => do
    let toL ← mergedRecipients m
    fanoutLoop newId now ((m.lookup "from").getD (.s "UNKNOWN"))
      (jToStr ((m.lookup "subject").getD (.s "No Subject")))
      ((m.lookup "body").getD ((m.lookup "content").getD (.s "")))
      messagePath
      ((m.lookup "priority").getD (.s "NORMAL"))
      st toL
  | some (some _) => .error .attributeError

/-- Stable insertion step for alerts.sort(key=timestamp, reverse=True):
the inserted alert goes in front of the first element whose timestamp is
less than or equal to its own. -/
def insertByTsDesc (a : Alert) : List Alert → List Alert
  | [] => [a]
  | b :: rest =>
    if b.timestamp ≤ a.timestamp then a :: b :: rest
    else b :: insertByTsDesc a rest

/-- Python list.sort(key=timestamp, reverse=True): stable, newest first. -/
def sortByTsDesc (l : List Alert) : List Alert :=
  l.foldr insertByTsDesc []

/-- SynapseNotify.get_alerts. Note the Python truthiness test on the
priority filter: both None and the empty string disable it. -/
def getAlerts (st : NotifyState) (agent : String) (unread_only : Bool)
    (priority : Option String) :
    Except PyExc (List Alert × NotifyState) := do
  let alerts ← loadAlerts st.fs agent
  let alerts2 := if unread_only then alerts.filter (fun a => !a.read) else alerts
  let alerts3 :=
    match priority with
    | some p =>
      if p.isEmpty then alerts2
      else alerts2.filter fun a => a.priority == pyUpper p
    | none => alerts2
  .ok (sortByTsDesc alerts3, st)

/-- SynapseNotify.get_alert_count. -/
def getAlertCount (st : NotifyState) (agent : String) (unread_only : Bool) :
    Except PyExc (Nat × NotifyState) := do
  let (alerts, st2) ← getAlerts st agent unread_only none
  .ok (alerts.length, st2)

/-- The marking loop of mark_read: with an alert id, the first unread
alert carrying that id is marked and the loop breaks; without one, every
unread alert is marked; already-read alerts are never counted. -/
def markReadList (alert_id : Option String) : List Alert → List Alert × Nat
  | [] => ([], 0)
  | a :: rest =>
    if (alert_id.isNone || alert_id == some a.id) && !a.read then
      match alert_id with
      | some _ => ({ a with read := true } :: rest, 1)
      | none =>
        let (rest2, c) := markReadList alert_id rest
        ({ a with read := true } :: rest2, c + 1)
    else
      let (rest2, c) := markReadList alert_id rest
      (a :: rest2, c)

/-- SynapseNotify.mark_read: loads, marks, then always saves the full
mailbox, even when nothing changed. -/
def markRead (st : NotifyState) (now : String) (agent : String)
    (alert_id : Option String) : Except PyExc (Nat × NotifyState) := do
  let alerts ← loadAlerts st.fs agent
  let (alerts2, count) := markReadList alert_id alerts
  .ok (count, { st with fs := saveAlerts st.fs agent now alerts2 })

/-- The Alert value built by create_alert before the dedup check, with
the generated id and clock reading as inputs. -/
def newAlert (newId now to_agent from_agent subject pv source_file priority : String) : Alert :=
  { id := newId
    timestamp := now
    from_agent := normalizeAgent from_agent
    to_agent := normalizeAgent to_agent
    subject := subject
    preview := pv
    source_file := source_file
    priority := validatePriority priority
    read := false }

/-- Number of alerts of a mailbox carrying a given source_file. -/
def countSrc (l : List Alert) (src : String) : Nat :=
  (l.filter fun a => a.source_file == src).length

/-- Alerts directories whose files were all written by _save_alerts; such
files always load successfully. -/
def GoodFS (fs : FS) : Prop :=
  ∀ p ∈ fs, ∃ ag now l, p.2 = some (saveDoc ag now l)

/-- Recipient expansion as the specification words it: a recipient that
case-insensitively equals ALL or TEAM_BRAIN is replaced by the fixed
broadcast set, written here independently of the code path, for the
fan-out refinement claim. -/
def expandRecipientsSpec : List String → List String
  | [] => []
  | r :: rest =>
    (if pyUpper r = "ALL" ∨ pyUpper r = "TEAM_BRAIN" then
      ["FORGE", "ATLAS", "CLIO", "NEXUS", "IRIS", "PORTER"]
    else [r]) ++ expandRecipientsSpec rest

/-- Projection of a create_alert result onto the recipient and sender
fields of the returned alert. -/
def createdToFrom (r : Except PyExc (Alert × NotifyState)) : Except PyExc (String × String) :=
  match r with
  | .ok (a, _) => .ok (a.to_agent, a.from_agent)
  | .error e => .error e

/-- Projection of a get_alerts result onto the returned alert ids. -/
def queriedIds (r : Except PyExc (List Alert × NotifyState)) : Except PyExc (List String) :=
  match r with
  | .ok (l, _) => .ok (l.map fun a => a.id)
  | .error e => .error e

theorem exceptBindOk {α β ε : Type} (a : α) (f : α → Except ε β) :
    (Except.ok a >>= f) = f a := rfl

theorem alertFromDict_toJ (a : Alert) : alertFromDict a.toJ = .ok a := rfl

theorem alertsFromList_toJ (l : List Alert) : alertsFromList (l.map Alert.toJ) = .ok l := by
  induction l with
  | nil => rfl
  | cons a rest ih =>
    simp only [List.map, alertsFromList, alertFromDict_toJ, ih]
    rfl

theorem parseAlertsDoc_saveDoc (ag now : String) (l : List Alert) :
    parseAlertsDoc (saveDoc ag now l) = .ok l := by
  simp only [parseAlertsDoc, saveDoc, List.lookup]
  simp [alertsFromList_toJ]

theorem fsRead_fsWrite (fs : FS) (k : String) (v : Option J) :
    fsRead (fsWrite fs k v) k = some v := by
  induction fs with
  | nil => simp [fsRead, fsWrite, List.lookup]
  | cons p rest ih =>
    obtain ⟨k1, w⟩ := p
    by_cases h : k1 = k
    · subst h; simp [fsRead, fsWrite, List.lookup]
    · have hk : (k1 == k) = false := beq_eq_false_iff_ne.mpr h
      have hk2 : (k == k1) = false := beq_eq_false_iff_ne.mpr (Ne.symm h)
      simp only [fsRead, fsWrite, hk, cond_false, List.lookup, hk2] at ih ⊢
      exact ih

theorem loadAlerts_saveAlerts (fs : FS) (ag now : String) (l : List Alert) :
    loadAlerts (saveAlerts fs ag now l) ag = .ok l := by
  simp [loadAlerts, saveAlerts, fsRead_fsWrite, loadAlertsFromFile, parseAlertsDoc_saveDoc]

theorem createAlert_dup (st : NotifyState) (newId now toA fr subj src pr pv : String)
    (content : J) (alerts : List Alert)
    (hpv : extractPreview content = .ok pv)
    (hload : loadAlerts st.fs (normalizeAgent toA) = .ok alerts)
    (hdup : (alerts.any fun a => a.source_file == src) = true) :
    createAlert st newId now toA fr subj content src pr =
      .ok (newAlert newId now toA fr subj pv src pr, st) := by
  simp only [createAlert, hpv, hload, exceptBindOk, hdup, if_true, newAlert]

theorem createAlert_fresh (st : NotifyState) (newId now toA fr subj src pr pv : String)
    (content : J) (alerts : List Alert)
    (hpv : extractPreview content = .ok pv)
    (hload : loadAlerts st.fs (normalizeAgent toA) = .ok alerts)
    (hdup : (alerts.any fun a => a.source_file == src) = false) :
    createAlert st newId now toA fr subj content src pr =
      .ok (newAlert newId now toA fr subj pv src pr,
           { fs := saveAlerts st.fs (normalizeAgent toA) now
                     (alerts ++ [newAlert newId now toA fr subj pv src pr]),
             bells := st.bells + 1 }) := by
  simp only [createAlert, hpv, hload, exceptBindOk, hdup, Bool.false_eq_true, if_false, newAlert]

/-- C1: a duplicate source_file in the target mailbox makes create_alert
return the unsaved alert with the state (files and bell count) untouched,
and two create_alert calls with the same source_file for the same
recipient leave exactly one alert carrying that source_file in the
recipient's mailbox. -/
theorem create_alert_idempotent (st : NotifyState)
    (newId now newId2 now2 toA fr subj src pr pv : String)
    (content : J) (alerts : List Alert)
    (hpv : extractPreview content = .ok pv)
    (hload : loadAlerts st.fs (normalizeAgent toA) = .ok alerts) :
    ((alerts.any fun a => a.source_file == src) = true →
      createAlert st newId now toA fr subj content src pr =
        .ok (newAlert newId now toA fr subj pv src pr, st)) ∧
    (countSrc alerts src ≤ 1 →
      ∃ a1 st1 a2 st2 final,
        createAlert st newId now toA fr subj content src pr = .ok (a1, st1) ∧
        createAlert st1 newId2 now2 toA fr subj content src pr = .ok (a2, st2) ∧
        loadAlerts st2.fs (normalizeAgent toA) = .ok final ∧
        countSrc final src = 1) := by
  constructor
  · intro hdup
    exact createAlert_dup st newId now toA fr subj src pr pv content alerts hpv hload hdup
  · intro hcount
    cases hdup : (alerts.any fun a => a.source_file == src) with
    | true =>
      refine ⟨newAlert newId now toA fr subj pv src pr, st,
              newAlert newId2 now2 toA fr subj pv src pr, st, alerts,
              createAlert_dup st newId now toA fr subj src pr pv content alerts hpv hload hdup,
              createAlert_dup st newId2 now2 toA fr subj src pr pv content alerts hpv hload hdup,
              hload, ?_⟩
      obtain ⟨a, ha, hpa⟩ := List.any_eq_true.mp hdup
      have hmem : a ∈ alerts.filter fun a => a.source_file == src := List.mem_filter.mpr ⟨ha, hpa⟩
      have hpos : 0 < countSrc alerts src := by
        simp only [countSrc]
        exact List.length_pos.mpr (List.ne_nil_of_mem hmem)
      omega
    | false =>
      have hzero : countSrc alerts src = 0 := by
        simp only [countSrc, List.length_eq_zero]
        rw [List.filter_eq_nil_iff]
        intro a ha
        have := List.any_eq_false.mp hdup a ha
        simpa using this
      set A := newAlert newId now toA fr subj pv src pr with hA
      have h1 := createAlert_fresh st newId now toA fr subj src pr pv content alerts hpv hload hdup
      have hload2 : loadAlerts (saveAlerts st.fs (normalizeAgent toA) now (alerts ++ [A]))
          (normalizeAgent toA) = .ok (alerts ++ [A]) := loadAlerts_saveAlerts _ _ _ _
      have hdup2 : ((alerts ++ [A]).any fun a => a.source_file == src) = true := by
        simp [List.any_append, hA, newAlert]
      have h2 := createAlert_dup
        ⟨saveAlerts st.fs (normalizeAgent toA) now (alerts ++ [A]), st.bells + 1⟩
        newId2 now2 toA fr subj src pr pv content (alerts ++ [A]) hpv hload2 hdup2
      refine ⟨A, _, _, _, alerts ++ [A], h1, h2, hload2, ?_⟩
      have hA2 : (List.filter (fun a => a.source_file == src) [A]).length = 1 := by
        simp [hA, newAlert]
      simp only [countSrc, List.filter_append, List.length_append] at *
      omega

/-- Witness for C1 at a fresh store: two creations of the same message
for ATLAS leave exactly one alert with that source_file. -/
theorem create_alert_idempotent_witness :
    ∃ a1 st1 a2 st2 final,
      createAlert ⟨[], 0⟩ "idA" "tA" "ATLAS" "FORGE" "subj" (J.s "hello") "/m.json" "NORMAL"
        = .ok (a1, st1) ∧
      createAlert st1 "idB" "tB" "ATLAS" "FORGE" "subj" (J.s "hello") "/m.json" "NORMAL"
        = .ok (a2, st2) ∧
      loadAlerts st2.fs (normalizeAgent "ATLAS") = .ok final ∧
      countSrc final "/m.json" = 1 :=
  (create_alert_idempotent ⟨[], 0⟩ "idA" "tA" "idB" "tB" "ATLAS" "FORGE" "subj" "/m.json"
    "NORMAL" "hello" (J.s "hello") [] rfl rfl).2 (by decide)

/-- C2 counterexample: the source strips every occurrence of CURSOR_ and
CLI_ anywhere in the uppercased name, not just a first prefix match:
ATLAS_CURSOR_X keeps no non-prefix occurrence, and CLI_CLI_CLIO loses
both CLI_ occurrences instead of only the first. -/
theorem create_alert_normalization_counterexample :
    createdToFrom (createAlert ⟨[], 0⟩ "id" "t" "ATLAS_CURSOR_X" "CLI_CLI_CLIO" "s"
        (J.s "c") "/m" "NORMAL")
      = .ok ("ATLAS_X", "CLIO") ∧
    "ATLAS_X" ≠ "ATLAS_CURSOR_X" ∧ "CLIO" ≠ "CLI_CLIO" :=
  ⟨rfl, by decide, by decide⟩

/-- C2 amended: the to_agent and from_agent fields of a created alert are
the inputs uppercased with every leftmost non-overlapping occurrence of
CURSOR_ removed and then every occurrence of CLI_ removed, wherever those
occur in the name. -/
theorem create_alert_normalization (st : NotifyState)
    (newId now toA fr subj src pr pv : String) (content : J) (alerts : List Alert)
    (hpv : extractPreview content = .ok pv)
    (hload : loadAlerts st.fs (normalizeAgent toA) = .ok alerts) :
    ∃ a st2, createAlert st newId now toA fr subj content src pr = .ok (a, st2) ∧
      a.to_agent = pyReplace (pyReplace (pyUpper toA) "CURSOR_" "") "CLI_" "" ∧
      a.from_agent = pyReplace (pyReplace (pyUpper fr) "CURSOR_" "") "CLI_" "" := by
  cases hdup : (alerts.any fun a => a.source_file == src) with
  | true =>
    exact ⟨_, st, createAlert_dup st newId now toA fr subj src pr pv content alerts hpv hload hdup,
      rfl, rfl⟩
  | false =>
    exact ⟨_, _, createAlert_fresh st newId now toA fr subj src pr pv content alerts hpv hload hdup,
      rfl, rfl⟩

/-- Witness for C2 amended at the canonical aliases: CURSOR_FORGE maps to
FORGE and CLI_CLIO maps to CLIO. -/
theorem create_alert_normalization_witness :
    ∃ a st2, createAlert ⟨[], 0⟩ "id" "t" "CURSOR_FORGE" "CLI_CLIO" "s" (J.s "c") "/m" "NORMAL"
        = .ok (a, st2) ∧ a.to_agent = "FORGE" ∧ a.from_agent = "CLIO" := by
  obtain ⟨a, st2, h1, h2, h3⟩ := create_alert_normalization ⟨[], 0⟩ "id" "t" "CURSOR_FORGE"
    "CLI_CLIO" "s" "/m" "NORMAL" "c" (J.s "c") [] rfl rfl
  exact ⟨a, st2, h1, h2.trans (by decide), h3.trans (by decide)⟩

/-- C3 counterexample: a mailbox file holding the valid JSON document []
makes _load_alerts raise AttributeError (data.get on a list) instead of
recovering to an empty mailbox; only JSONDecodeError and KeyError are
caught. -/
theorem load_alerts_malformed_counterexample :
    loadAlerts [("ATLAS_alerts.json", some (J.arr []))] "ATLAS" = .error PyExc.attributeError ∧
    loadAlerts [("ATLAS_alerts.json", some (J.arr []))] "ATLAS" ≠ .ok ([] : List Alert) :=
  ⟨rfl, by decide⟩

/-- C3 amended: _load_alerts returns the empty mailbox when the agent has
no mailbox file and when the file content is not parseable as JSON; other
malformed shapes (valid JSON that is not an object of the expected
structure) escape as exceptions. -/
theorem load_alerts_missing_or_unparseable (fs : FS) (agent : String)
    (h : fsRead fs (fileKey agent) = none ∨ fsRead fs (fileKey agent) = some none) :
    loadAlerts fs agent = .ok [] := by
  rcases h with h | h <;> simp [loadAlerts, h, loadAlertsFromFile]

/-- Witness for C3 amended: a missing file and a non-JSON file both load
as the empty mailbox. -/
theorem load_alerts_missing_or_unparseable_witness :
    loadAlerts [] "ATLAS" = .ok [] ∧
    loadAlerts [("ATLAS_alerts.json", none)] "ATLAS" = .ok [] :=
  ⟨load_alerts_missing_or_unparseable [] "ATLAS" (Or.inl rfl),
   load_alerts_missing_or_unparseable [("ATLAS_alerts.json", none)] "ATLAS" (Or.inr rfl)⟩

/-- C4 counterexample: a message file holding the valid JSON document []
makes create_alerts_from_synapse_message raise AttributeError (msg.get on
a list) instead of returning the empty list; only JSONDecodeError and
FileNotFoundError are caught. -/
theorem fanout_malformed_counterexample :
    createAlertsFromSynapseMessage ⟨[], 0⟩ "id" "t" "/msg.json" (some (some (J.arr [])))
      = .error PyExc.attributeError ∧
    createAlertsFromSynapseMessage ⟨[], 0⟩ "id" "t" "/msg.json" (some (some (J.arr [])))
      ≠ .ok ([], ⟨[], 0⟩) := by
  refine ⟨rfl, fun h => ?_⟩
  have h2 : (Except.error PyExc.attributeError : Except PyExc (List Alert × NotifyState))
      = .ok ([], ⟨[], 0⟩) := h
  exact Except.noConfusion h2

/-- C4 amended: a missing message file and an unreadable (non-JSON)
message file both yield the empty alert list with the state untouched;
well-formed JSON of the wrong shape instead escapes as an exception. -/
theorem fanout_missing_or_unparseable (st : NotifyState) (newId now path : String)
    (file : Option (Option J)) (h : file = none ∨ file = some none) :
    createAlertsFromSynapseMessage st newId now path file = .ok ([], st) := by
  rcases h with h | h <;> subst h <;> rfl

/-- Witness for C4 amended at a fresh store. -/
theorem fanout_missing_or_unparseable_witness :
    createAlertsFromSynapseMessage ⟨[], 0⟩ "id" "t" "/msg.json" none = .ok ([], ⟨[], 0⟩) ∧
    createAlertsFromSynapseMessage ⟨[], 0⟩ "id" "t" "/msg.json" (some none) = .ok ([], ⟨[], 0⟩) :=
  ⟨fanout_missing_or_unparseable ⟨[], 0⟩ "id" "t" "/msg.json" none (Or.inl rfl),
   fanout_missing_or_unparseable ⟨[], 0⟩ "id" "t" "/msg.json" (some none) (Or.inr rfl)⟩

/-- C7: the priority field of a created alert is the uppercased input
when that case-insensitively matches one of the four Priority values, and
NORMAL otherwise; creation never fails on a malformed priority. -/
theorem create_alert_priority_fallback (st : NotifyState)
    (newId now toA fr subj src pr pv : String) (content : J) (alerts : List Alert)
    (hpv : extractPreview content = .ok pv)
    (hload : loadAlerts st.fs (normalizeAgent toA) = .ok alerts) :
    ∃ a st2, createAlert st newId now toA fr subj content src pr = .ok (a, st2) ∧
      a.priority = (if pyUpper pr ∈ validPriorities then pyUpper pr else "NORMAL") ∧
      a.priority ∈ validPriorities := by
  have hmem : validatePriority pr ∈ validPriorities := by
    unfold validatePriority
    split
    · assumption
    · decide
  cases hdup : (alerts.any fun a => a.source_file == src) with
  | true =>
    exact ⟨_, st, createAlert_dup st newId now toA fr subj src pr pv content alerts hpv hload hdup,
      rfl, hmem⟩
  | false =>
    exact ⟨_, _, createAlert_fresh st newId now toA fr subj src pr pv content alerts hpv hload hdup,
      rfl, hmem⟩

/-- Witness for C7: a bogus priority value falls back to NORMAL. -/
theorem create_alert_priority_fallback_witness :
    ∃ a st2, createAlert ⟨[], 0⟩ "id" "t" "ATLAS" "FORGE" "s" (J.s "c") "/m" "BOGUS"
        = .ok (a, st2) ∧ a.priority = "NORMAL" := by
  obtain ⟨a, st2, h1, h2, h3⟩ := create_alert_priority_fallback ⟨[], 0⟩ "id" "t" "ATLAS"
    "FORGE" "s" "/m" "BOGUS" "c" (J.s "c") [] rfl rfl
  exact ⟨a, st2, h1, h2.trans (by decide)⟩


theorem pyTake_length (s : String) (n : Nat) : (pyTake s n).length = min n s.length := by
  show (s.data.take n).length = min n s.data.length
  exact List.length_take n s.data

theorem pyTake_all {s : String} {n : Nat} (h : s.length ≤ n) : pyTake s n = s := by
  simp only [pyTake]
  rw [List.take_of_length_le h]

theorem pyTake_pyTake (s : String) (n m : Nat) :
    pyTake (pyTake s m) n = pyTake s (min n m) := by
  simp [pyTake, List.take_take]

theorem ellipsize_length (p : String) : (ellipsize p).length ≤ 100 := by
  unfold ellipsize
  split
  · rw [String.length_append, pyTake_length]
    have : ("..." : String).length = 3 := rfl
    omega
  · omega

/-- C6: previews are at most 100 characters; plain text shorter than 100
characters passes through, text of 100 or more becomes its first 97
characters plus an ellipsis marker, dict content takes the first present
field among announcement, message, summary in that order (falling back to
the stringified mapping truncated to 100), with the same ellipsis rule on
the selected text; announcement X gives exactly X. -/
theorem extract_preview_spec :
    (∀ t : String, t.length < 100 → extractPreview (J.s t) = .ok t) ∧
    (∀ t : String, 100 ≤ t.length → extractPreview (J.s t) = .ok (pyTake t 97 ++ "...")) ∧
    (∀ content pv, extractPreview content = .ok pv → pv.length ≤ 100) ∧
    (∀ fs v, fs.lookup "announcement" = some (J.s v) →
      extractPreview (J.obj fs) = .ok (ellipsize v)) ∧
    (∀ fs v, fs.lookup "announcement" = none → fs.lookup "message" = some (J.s v) →
      extractPreview (J.obj fs) = .ok (ellipsize v)) ∧
    (∀ fs v, fs.lookup "announcement" = none → fs.lookup "message" = none →
      fs.lookup "summary" = some (J.s v) → extractPreview (J.obj fs) = .ok (ellipsize v)) ∧
    (∀ fs, fs.lookup "announcement" = none → fs.lookup "message" = none →
      fs.lookup "summary" = none →
      extractPreview (J.obj fs) = .ok (ellipsize (pyTake (pyStr (J.obj fs)) 100))) ∧
    (∀ v : String, 100 ≤ v.length → ellipsize v = pyTake v 97 ++ "...") ∧
    extractPreview (J.obj [("announcement", J.s "X")]) = .ok "X" := by
  have hell : ∀ v : String, 100 ≤ v.length → ellipsize v = pyTake v 97 ++ "..." := by
    intro v hv
    unfold ellipsize
    rw [if_pos hv]
  refine ⟨?_, ?_, ?_, ?_, ?_, ?_, ?_, hell, rfl⟩
  · intro t ht
    have h1 : pyTake t 100 = t := pyTake_all (by omega)
    simp only [extractPreview, h1]
    unfold ellipsize
    rw [if_neg (by omega)]
  · intro t ht
    have hlen : (pyTake t 100).length = 100 := by rw [pyTake_length]; omega
    simp only [extractPreview]
    rw [hell _ (le_of_eq hlen.symm), pyTake_pyTake]
    norm_num
  · intro content pv h
    cases content with
    | s t =>
      simp only [extractPreview, Except.ok.injEq] at h
      exact h ▸ ellipsize_length _
    | obj fs =>
      simp only [extractPreview] at h
      cases hcf : contentField fs with
      | none =>
        rw [hcf] at h
        simp only [Except.ok.injEq] at h
        exact h ▸ ellipsize_length _
      | some v =>
        rw [hcf] at h
        cases v with
        | s t =>
          simp only [Except.ok.injEq] at h
          exact h ▸ ellipsize_length _
        | null => exact absurd h (by simp)
        | b x => exact absurd h (by simp)
        | n x => exact absurd h (by simp)
        | arr xs => exact absurd h (by simp)
        | obj fs2 => exact absurd h (by simp)
    | null =>
      simp only [extractPreview, Except.ok.injEq] at h
      exact h ▸ ellipsize_length _
    | b x =>
      simp only [extractPreview, Except.ok.injEq] at h
      exact h ▸ ellipsize_length _
    | n x =>
      simp only [extractPreview, Except.ok.injEq] at h
      exact h ▸ ellipsize_length _
    | arr xs =>
      simp only [extractPreview, Except.ok.injEq] at h
      exact h ▸ ellipsize_length _
  · intro fs v h1
    simp [extractPreview, contentField, h1]
  · intro fs v h1 h2
    simp [extractPreview, contentField, h1, h2]
  · intro fs v h1 h2 h3
    simp [extractPreview, contentField, h1, h2, h3]
  · intro fs h1 h2 h3
    simp [extractPreview, contentField, h1, h2, h3]

set_option maxRecDepth 40000 in
/-- Witness for C6: 200 identical characters produce the 97-character
head plus ellipsis, of length exactly 100. -/
theorem extract_preview_spec_witness :
    extractPreview (J.s (String.mk (List.replicate 200 'x')))
      = .ok (pyTake (String.mk (List.replicate 200 'x')) 97 ++ "...") ∧
    (pyTake (String.mk (List.replicate 200 'x')) 97 ++ "...").length = 100 :=
  ⟨extract_preview_spec.2.1 _ (by decide), by decide⟩

/-- C10: get_alerts and get_alert_count never modify the store; in
particular querying an agent with no mailbox file creates none. -/
theorem get_alerts_read_only (st : NotifyState) (agent : String) (uo : Bool)
    (pr : Option String) :
    ((∃ e, getAlerts st agent uo pr = .error e) ∨
      ∃ out, getAlerts st agent uo pr = .ok (out, st)) ∧
    ((∃ e, getAlertCount st agent uo = .error e) ∨
      ∃ c, getAlertCount st agent uo = .ok (c, st)) := by
  cases h : loadAlerts st.fs agent with
  | error e =>
    constructor
    · exact Or.inl ⟨e, by unfold getAlerts; rw [h]; rfl⟩
    · exact Or.inl ⟨e, by unfold getAlertCount getAlerts; rw [h]; rfl⟩
  | ok l =>
    constructor
    · exact Or.inr ⟨_, by unfold getAlerts; rw [h]; rfl⟩
    · exact Or.inr ⟨_, by unfold getAlertCount getAlerts; rw [h]; rfl⟩


theorem GoodFS_nil : GoodFS [] := by
  intro p hp
  cases hp

theorem fsRead_mem (fs : FS) (k : String) (v : Option J) (h : fsRead fs k = some v) :
    ∃ k1, (k1, v) ∈ fs := by
  induction fs with
  | nil => simp [fsRead, List.lookup] at h
  | cons p rest ih =>
    obtain ⟨k1, w⟩ := p
    simp only [fsRead, List.lookup] at h
    cases hk : (k == k1) with
    | true =>
      rw [hk] at h
      simp only [Option.some.injEq] at h
      exact ⟨k1, by simp [h]⟩
    | false =>
      rw [hk] at h
      obtain ⟨k2, hmem⟩ := ih h
      exact ⟨k2, List.mem_cons_of_mem _ hmem⟩

theorem GoodFS_load {fs : FS} (h : GoodFS fs) (ag : String) :
    ∃ l, loadAlerts fs ag = .ok l := by
  cases hr : fsRead fs (fileKey ag) with
  | none => exact ⟨[], by simp [loadAlerts, hr, loadAlertsFromFile]⟩
  | some v =>
    obtain ⟨k1, hmem⟩ := fsRead_mem _ _ _ hr
    obtain ⟨ag2, now2, l, hv⟩ := h _ hmem
    have hv2 : v = some (saveDoc ag2 now2 l) := hv
    subst hv2
    exact ⟨l, by simp [loadAlerts, hr, loadAlertsFromFile, parseAlertsDoc_saveDoc]⟩

theorem GoodFS_write (k ag now : String) (l : List Alert) :
    ∀ fs : FS, GoodFS fs → GoodFS (fsWrite fs k (some (saveDoc ag now l))) := by
  intro fs
  induction fs with
  | nil =>
    intro _ p hp
    simp only [fsWrite, List.mem_singleton] at hp
    subst hp
    exact ⟨ag, now, l, rfl⟩
  | cons q rest ih =>
    obtain ⟨k1, w⟩ := q
    intro h p hp
    have hrest : GoodFS rest := fun p hp => h p (List.mem_cons_of_mem _ hp)
    simp only [fsWrite] at hp
    split at hp
    · rcases List.mem_cons.mp hp with hp | hp
      · subst hp; exact ⟨ag, now, l, rfl⟩
      · exact h p (List.mem_cons_of_mem _ hp)
    · rcases List.mem_cons.mp hp with hp | hp
      · subst hp; exact h (k1, w) (List.mem_cons_self _ _)
      · exact ih hrest p hp

theorem GoodFS_save {fs : FS} (h : GoodFS fs) (ag now : String) (l : List Alert) :
    GoodFS (saveAlerts fs ag now l) :=
  GoodFS_write (fileKey ag) ag now l fs h

theorem createAlert_good (st : NotifyState) (newId now toA fr subj src pr pv : String)
    (content : J) (hg : GoodFS st.fs) (hpv : extractPreview content = .ok pv) :
    ∃ st2, createAlert st newId now toA fr subj content src pr
        = .ok (newAlert newId now toA fr subj pv src pr, st2) ∧ GoodFS st2.fs := by
  obtain ⟨l, hl⟩ := GoodFS_load hg (normalizeAgent toA)
  cases hdup : (l.any fun a => a.source_file == src) with
  | true =>
    exact ⟨st, createAlert_dup st newId now toA fr subj src pr pv content l hpv hl hdup, hg⟩
  | false =>
    exact ⟨_, createAlert_fresh st newId now toA fr subj src pr pv content l hpv hl hdup,
      GoodFS_save hg (normalizeAgent toA) now _⟩

theorem createForAgents_good (newId now fromS subj : String) (body : J) (src prS pv : String)
    (hpv : extractPreview body = .ok pv) :
    ∀ (agents : List String) (st : NotifyState), GoodFS st.fs →
    ∃ alerts st2, createForAgents newId now fromS subj body src prS st agents
        = .ok (alerts, st2) ∧ GoodFS st2.fs ∧
      alerts.map (fun a => a.to_agent) = agents.map normalizeAgent := by
  intro agents
  induction agents with
  | nil => intro st hg; exact ⟨[], st, rfl, hg, rfl⟩
  | cons ag rest ih =>
    intro st hg
    obtain ⟨st2, h1, hg2⟩ := createAlert_good st newId now ag fromS subj src prS pv body hg hpv
    obtain ⟨as2, st3, h2, hg3, hmap⟩ := ih st2 hg2
    refine ⟨newAlert newId now ag fromS subj pv src prS :: as2, st3, ?_, hg3, ?_⟩
    · simp only [createForAgents, h1, exceptBindOk, h2]
    · simp [hmap, newAlert]

theorem fanoutLoop_good (newId now fromS subj : String) (body : J) (src prS pv : String)
    (hpv : extractPreview body = .ok pv) :
    ∀ (rs : List String) (st : NotifyState), GoodFS st.fs →
    ∃ alerts st2,
      fanoutLoop newId now (J.s fromS) subj body src (J.s prS) st (rs.map J.s)
        = .ok (alerts, st2) ∧ GoodFS st2.fs ∧
      alerts.map (fun a => a.to_agent) = (expandRecipientsSpec rs).map normalizeAgent := by
  intro rs
  induction rs with
  | nil => intro st hg; exact ⟨[], st, rfl, hg, rfl⟩
  | cons r rest ih =>
    intro st hg
    by_cases hb : pyUpper r = "ALL" ∨ pyUpper r = "TEAM_BRAIN"
    · have hcond : (pyUpper r == "ALL" || pyUpper r == "TEAM_BRAIN") = true := by
        rcases hb with hb | hb <;> simp [hb]
      obtain ⟨batch, st2, h1, hg2, hmap1⟩ :=
        createForAgents_good newId now fromS subj body src prS pv hpv BROADCAST_AGENTS st hg
      obtain ⟨restA, st3, h2, hg3, hmap2⟩ := ih st2 hg2
      refine ⟨batch ++ restA, st3, ?_, hg3, ?_⟩
      · simp only [List.map_cons, fanoutLoop, asStr, exceptBindOk, hcond, if_true, h1, h2]
      · rw [List.map_append, hmap1, hmap2]
        have : expandRecipientsSpec (r :: rest)
            = ["FORGE", "ATLAS", "CLIO", "NEXUS", "IRIS", "PORTER"] ++ expandRecipientsSpec rest := by
          simp only [expandRecipientsSpec, if_pos hb]
        rw [this, List.map_append]
        rfl
    · have hcond : (pyUpper r == "ALL" || pyUpper r == "TEAM_BRAIN") = false := by
        push_neg at hb
        simp [hb.1, hb.2]
      obtain ⟨batch, st2, h1, hg2, hmap1⟩ :=
        createForAgents_good newId now fromS subj body src prS pv hpv [r] st hg
      obtain ⟨restA, st3, h2, hg3, hmap2⟩ := ih st2 hg2
      refine ⟨batch ++ restA, st3, ?_, hg3, ?_⟩
      · simp only [List.map_cons, fanoutLoop, asStr, exceptBindOk, hcond, Bool.false_eq_true,
          if_false, h1, h2]
      · rw [List.map_append, hmap1, hmap2]
        have : expandRecipientsSpec (r :: rest) = [r] ++ expandRecipientsSpec rest := by
          simp only [expandRecipientsSpec, if_neg hb]
        rw [this, List.map_append]

/-- C5: for a well-formed message (to and cc holding strings, string
from and priority, previewable body), fan-out merges to and cc into one
recipient list and creates exactly one alert per expanded recipient in
iteration order, where a recipient case-insensitively equal to ALL or
TEAM_BRAIN expands to the six broadcast agents and any other recipient
stands for itself, as stated by expandRecipientsSpec. -/
theorem fanout_broadcast (st : NotifyState) (newId now path : String)
    (m : List (String × J)) (rs : List String) (fromS prS pv : String)
    (hg : GoodFS st.fs)
    (hm : mergedRecipients m = .ok (rs.map J.s))
    (hfrom : (m.lookup "from").getD (.s "UNKNOWN") = .s fromS)
    (hpr : (m.lookup "priority").getD (.s "NORMAL") = .s prS)
    (hpv : extractPreview ((m.lookup "body").getD ((m.lookup "content").getD (.s ""))) = .ok pv) :
    ∃ alerts st2,
      createAlertsFromSynapseMessage st newId now path (some (some (.obj m)))
        = .ok (alerts, st2) ∧
      alerts.map (fun a => a.to_agent) = (expandRecipientsSpec rs).map normalizeAgent := by
  obtain ⟨alerts, st2, h1, _, hmap⟩ := fanoutLoop_good newId now fromS
    (jToStr ((m.lookup "subject").getD (.s "No Subject")))
    ((m.lookup "body").getD ((m.lookup "content").getD (.s ""))) path prS pv hpv rs st hg
  refine ⟨alerts, st2, ?_, hmap⟩
  simp only [createAlertsFromSynapseMessage, hm, exceptBindOk, hfrom, hpr]
  exact h1

/-- Witness for C5: a message to TEAM_BRAIN alone yields one alert per
broadcast agent, in order, and no others. -/
theorem fanout_broadcast_witness :
    ∃ alerts st2,
      createAlertsFromSynapseMessage ⟨[], 0⟩ "id" "t" "/msg.json"
          (some (some (J.obj [("to", J.arr [J.s "TEAM_BRAIN"])]))) = .ok (alerts, st2) ∧
      alerts.map (fun a => a.to_agent) = ["FORGE", "ATLAS", "CLIO", "NEXUS", "IRIS", "PORTER"] := by
  obtain ⟨alerts, st2, h1, h2⟩ := fanout_broadcast ⟨[], 0⟩ "id" "t" "/msg.json"
    [("to", J.arr [J.s "TEAM_BRAIN"])] ["TEAM_BRAIN"] "UNKNOWN" "NORMAL" "" GoodFS_nil
    rfl rfl rfl rfl
  exact ⟨alerts, st2, h1, h2.trans (by decide)⟩


theorem markReadList_none (l : List Alert) :
    markReadList none l
      = (l.map fun a => { a with read := true }, (l.filter fun a => !a.read).length) := by
  induction l with
  | nil => rfl
  | cons a rest ih =>
    cases h : a.read with
    | false =>
      simp only [markReadList, Option.isNone_none, Bool.true_or, Bool.true_and, h,
        Bool.not_false, if_true, ih, List.map_cons, List.filter_cons, Bool.not_false]
      rfl
    | true =>
      have ha : { a with read := true } = a := by
        cases a
        simp_all
      simp only [markReadList, Option.isNone_none, Bool.true_or, Bool.true_and, h,
        Bool.not_true, Bool.false_eq_true, if_false, ih, List.map_cons, List.filter_cons,
        Bool.not_true, ha]

theorem markReadList_some (i : String) (l : List Alert) :
    ((∀ b ∈ l, ¬(b.id = i ∧ b.read = false)) ∧ markReadList (some i) l = (l, 0)) ∨
    (∃ l1 a l2, l = l1 ++ a :: l2 ∧ (∀ b ∈ l1, ¬(b.id = i ∧ b.read = false)) ∧
      a.id = i ∧ a.read = false ∧
      markReadList (some i) l = (l1 ++ ({ a with read := true }) :: l2, 1)) := by
  induction l with
  | nil => exact Or.inl ⟨by simp, rfl⟩
  | cons a rest ih =>
    cases hread : a.read with
    | false =>
      by_cases hid : a.id = i
      · refine Or.inr ⟨[], a, rest, rfl, by simp, hid, hread, ?_⟩
        have hc : (((some i).isNone || some i == some a.id) && !a.read) = true := by
          simp [hid, hread]
        simp only [markReadList, hc, if_true, List.nil_append]
      · have hc : (((some i).isNone || some i == some a.id) && !a.read) = false := by
          simp [hread, beq_iff_eq]
          exact fun h => hid h.symm
        rcases ih with ⟨hall, heq⟩ | ⟨l1, b, l2, hsplit, hl1, hbid, hbread, heq⟩
        · refine Or.inl ⟨?_, ?_⟩
          · intro b hb
            rcases List.mem_cons.mp hb with hb | hb
            · subst hb; exact fun h => hid h.1
            · exact hall b hb
          · simp only [markReadList, hc, Bool.false_eq_true, if_false, heq]
        · refine Or.inr ⟨a :: l1, b, l2, by rw [hsplit, List.cons_append], ?_, hbid, hbread, ?_⟩
          · intro c hc2
            rcases List.mem_cons.mp hc2 with hc2 | hc2
            · subst hc2; exact fun h => hid h.1
            · exact hl1 c hc2
          · simp only [markReadList, hc, Bool.false_eq_true, if_false, heq, List.cons_append]
    | true =>
      have hc : (((some i).isNone || some i == some a.id) && !a.read) = false := by
        simp [hread]
      have hna : ¬(a.id = i ∧ a.read = false) := fun h => by rw [hread] at h; exact absurd h.2 (by simp)
      rcases ih with ⟨hall, heq⟩ | ⟨l1, b, l2, hsplit, hl1, hbid, hbread, heq⟩
      · refine Or.inl ⟨?_, ?_⟩
        · intro b hb
          rcases List.mem_cons.mp hb with hb | hb
          · subst hb; exact hna
          · exact hall b hb
        · simp only [markReadList, hc, Bool.false_eq_true, if_false, heq]
      · refine Or.inr ⟨a :: l1, b, l2, by rw [hsplit, List.cons_append], ?_, hbid, hbread, ?_⟩
        · intro c hc2
          rcases List.mem_cons.mp hc2 with hc2 | hc2
          · subst hc2; exact hna
          · exact hl1 c hc2
        · simp only [markReadList, hc, Bool.false_eq_true, if_false, heq, List.cons_append]

/-- C8: mark_read with no alert id marks every unread alert and returns
the number of previously unread alerts; with an alert id it marks at most
the first unread alert in load order bearing that id (already-read
matches are skipped, nothing past the first marked one changes) and
returns 1 exactly when such an alert exists; in both shapes the full
mailbox is saved afterward, also when the count is 0. -/
theorem mark_read_spec (st : NotifyState) (now agent : String) (alerts : List Alert)
    (hload : loadAlerts st.fs agent = .ok alerts) :
    (∃ st2, markRead st now agent none
        = .ok ((alerts.filter fun a => !a.read).length, st2) ∧
      st2.fs = saveAlerts st.fs agent now (alerts.map fun a => { a with read := true })) ∧
    (∀ i, ∃ out count st2, markRead st now agent (some i) = .ok (count, st2) ∧
      st2.fs = saveAlerts st.fs agent now out ∧
      (((∀ b ∈ alerts, ¬(b.id = i ∧ b.read = false)) ∧ out = alerts ∧ count = 0) ∨
       (∃ l1 a l2, alerts = l1 ++ a :: l2 ∧ (∀ b ∈ l1, ¬(b.id = i ∧ b.read = false)) ∧
          a.id = i ∧ a.read = false ∧
          out = l1 ++ ({ a with read := true }) :: l2 ∧ count = 1))) := by
  constructor
  · refine ⟨{ st with fs := saveAlerts st.fs agent now (alerts.map fun a => { a with read := true }) }, ?_, rfl⟩
    simp only [markRead, hload, exceptBindOk, markReadList_none]
  · intro i
    rcases markReadList_some i alerts with ⟨hall, heq⟩ | ⟨l1, a, l2, hsplit, hl1, haid, haread, heq⟩
    · refine ⟨alerts, 0, { st with fs := saveAlerts st.fs agent now alerts }, ?_, rfl,
        Or.inl ⟨hall, rfl, rfl⟩⟩
      simp only [markRead, hload, exceptBindOk, heq]
    · refine ⟨l1 ++ ({ a with read := true }) :: l2, 1,
        { st with fs := saveAlerts st.fs agent now (l1 ++ ({ a with read := true }) :: l2) },
        ?_, rfl, Or.inr ⟨l1, a, l2, hsplit, hl1, haid, haread, rfl, rfl⟩⟩
      simp only [markRead, hload, exceptBindOk, heq]

set_option maxRecDepth 40000 in
/-- Witness for C8: marking alert i2 by id in a two-alert mailbox
transitions exactly that alert. -/
theorem mark_read_spec_witness :
    ∃ out count st2,
      markRead ⟨saveAlerts [] "ATLAS" "t0"
          [newAlert "i1" "t1" "ATLAS" "F" "s" "p" "/s1" "NORMAL",
           newAlert "i2" "t2" "ATLAS" "F" "s" "p" "/s2" "NORMAL"], 0⟩
        "t9" "ATLAS" (some "i2") = .ok (count, st2) ∧
      st2.fs = saveAlerts (saveAlerts [] "ATLAS" "t0"
          [newAlert "i1" "t1" "ATLAS" "F" "s" "p" "/s1" "NORMAL",
           newAlert "i2" "t2" "ATLAS" "F" "s" "p" "/s2" "NORMAL"]) "ATLAS" "t9" out ∧
      (((∀ b ∈ [newAlert "i1" "t1" "ATLAS" "F" "s" "p" "/s1" "NORMAL",
                newAlert "i2" "t2" "ATLAS" "F" "s" "p" "/s2" "NORMAL"],
          ¬(b.id = "i2" ∧ b.read = false)) ∧
         out = [newAlert "i1" "t1" "ATLAS" "F" "s" "p" "/s1" "NORMAL",
                newAlert "i2" "t2" "ATLAS" "F" "s" "p" "/s2" "NORMAL"] ∧ count = 0) ∨
       (∃ l1 a l2,
          [newAlert "i1" "t1" "ATLAS" "F" "s" "p" "/s1" "NORMAL",
           newAlert "i2" "t2" "ATLAS" "F" "s" "p" "/s2" "NORMAL"] = l1 ++ a :: l2 ∧
          (∀ b ∈ l1, ¬(b.id = "i2" ∧ b.read = false)) ∧
          a.id = "i2" ∧ a.read = false ∧
          out = l1 ++ ({ a with read := true }) :: l2 ∧ count = 1)) :=
  (mark_read_spec ⟨saveAlerts [] "ATLAS" "t0"
      [newAlert "i1" "t1" "ATLAS" "F" "s" "p" "/s1" "NORMAL",
       newAlert "i2" "t2" "ATLAS" "F" "s" "p" "/s2" "NORMAL"], 0⟩
    "t9" "ATLAS"
    [newAlert "i1" "t1" "ATLAS" "F" "s" "p" "/s1" "NORMAL",
     newAlert "i2" "t2" "ATLAS" "F" "s" "p" "/s2" "NORMAL"] rfl).2 "i2"


theorem insertByTsDesc_perm (a : Alert) (l : List Alert) :
    (insertByTsDesc a l).Perm (a :: l) := by
  induction l with
  | nil => exact List.Perm.refl _
  | cons b rest ih =>
    unfold insertByTsDesc
    split
    · exact List.Perm.refl _
    · exact (List.Perm.cons b ih).trans (List.Perm.swap a b rest)

theorem sortByTsDesc_perm (l : List Alert) : (sortByTsDesc l).Perm l := by
  induction l with
  | nil => exact List.Perm.refl _
  | cons a rest ih =>
    exact (insertByTsDesc_perm a (sortByTsDesc rest)).trans (List.Perm.cons a ih)

theorem insertByTsDesc_sorted (a : Alert) (l : List Alert)
    (h : l.Pairwise fun x y => y.timestamp ≤ x.timestamp) :
    (insertByTsDesc a l).Pairwise fun x y => y.timestamp ≤ x.timestamp := by
  induction l with
  | nil => simp [insertByTsDesc]
  | cons b rest ih =>
    have h1 := List.pairwise_cons.mp h
    unfold insertByTsDesc
    split
    · rename_i hba
      refine List.pairwise_cons.mpr ⟨?_, h⟩
      intro c hc
      rcases List.mem_cons.mp hc with hc | hc
      · subst hc; exact hba
      · exact le_trans (h1.1 c hc) hba
    · rename_i hba
      refine List.pairwise_cons.mpr ⟨?_, ih h1.2⟩
      intro c hc
      rcases List.mem_cons.mp ((insertByTsDesc_perm a rest).mem_iff.mp hc) with hc | hc
      · subst hc; exact le_of_not_le hba
      · exact h1.1 c hc

theorem sortByTsDesc_sorted (l : List Alert) :
    (sortByTsDesc l).Pairwise fun x y => y.timestamp ≤ x.timestamp := by
  induction l with
  | nil => simp [sortByTsDesc]
  | cons a rest ih => exact insertByTsDesc_sorted a (sortByTsDesc rest) ih

theorem insertByTsDesc_filter_ne (a : Alert) (l : List Alert) (t : String)
    (ht : a.timestamp ≠ t) :
    (insertByTsDesc a l).filter (fun x => x.timestamp == t)
      = l.filter (fun x => x.timestamp == t) := by
  induction l with
  | nil => simp [insertByTsDesc, List.filter_cons, beq_eq_false_iff_ne.mpr ht]
  | cons b rest ih =>
    unfold insertByTsDesc
    split
    · simp [List.filter_cons, beq_eq_false_iff_ne.mpr ht]
    · simp only [List.filter_cons, ih]

theorem insertByTsDesc_filter_eq (a : Alert) (l : List Alert) (t : String)
    (ht : a.timestamp = t) :
    (insertByTsDesc a l).filter (fun x => x.timestamp == t)
      = a :: l.filter (fun x => x.timestamp == t) := by
  induction l with
  | nil => simp [insertByTsDesc, List.filter_cons, ht]
  | cons b rest ih =>
    unfold insertByTsDesc
    split
    · simp [List.filter_cons, ht]
    · rename_i hba
      have hbt : b.timestamp ≠ t := by
        intro hb
        exact hba (le_of_eq (hb.trans ht.symm))
      simp only [List.filter_cons, beq_eq_false_iff_ne.mpr hbt, ih]
      simp

theorem sortByTsDesc_stable (l : List Alert) (t : String) :
    (sortByTsDesc l).filter (fun x => x.timestamp == t)
      = l.filter (fun x => x.timestamp == t) := by
  induction l with
  | nil => rfl
  | cons a rest ih =>
    by_cases ht : a.timestamp = t
    · have : (sortByTsDesc (a :: rest)).filter (fun x => x.timestamp == t)
          = a :: (sortByTsDesc rest).filter (fun x => x.timestamp == t) :=
        insertByTsDesc_filter_eq a (sortByTsDesc rest) t ht
      rw [this, ih, List.filter_cons, if_pos (by simp [ht])]
    · have : (sortByTsDesc (a :: rest)).filter (fun x => x.timestamp == t)
          = (sortByTsDesc rest).filter (fun x => x.timestamp == t) :=
        insertByTsDesc_filter_ne a (sortByTsDesc rest) t ht
      rw [this, ih, List.filter_cons, if_neg (by simp [ht])]

/-- C9 amended: get_alerts returns a permutation of the loaded alerts
passing the filters (unread_only keeps unread ones; a priority filter
keeps exact matches against the uppercased filter value, except that an
empty-string filter is Python-falsy and disables filtering), sorted by
timestamp descending, with ties kept in original load order, and without
touching the store. -/
theorem get_alerts_spec (st : NotifyState) (agent : String) (alerts : List Alert)
    (hload : loadAlerts st.fs agent = .ok alerts) (uo : Bool) (pr : Option String) :
    ∃ out, getAlerts st agent uo pr = .ok (out, st) ∧
      out.Perm (alerts.filter fun a =>
        (match pr with
         | none => true
         | some p => p.isEmpty || (a.priority == pyUpper p)) && (!uo || !a.read)) ∧
      out.Pairwise (fun x y => y.timestamp ≤ x.timestamp) ∧
      (∀ t, out.filter (fun a => a.timestamp == t) =
        (alerts.filter fun a =>
          (match pr with
           | none => true
           | some p => p.isEmpty || (a.priority == pyUpper p)) && (!uo || !a.read)).filter
          (fun a => a.timestamp == t)) := by
  refine ⟨_, ?_, sortByTsDesc_perm _, sortByTsDesc_sorted _, fun t => sortByTsDesc_stable _ t⟩
  simp only [getAlerts, hload, exceptBindOk]
  cases pr with
  | none => cases uo <;> simp
  | some p => by_cases hp : p.isEmpty <;> cases uo <;> simp [hp, List.filter_filter]

set_option maxRecDepth 40000 in
/-- C9 counterexample: the non-None priority filter consisting of the
empty string is ignored (Python truthiness), so an alert whose priority
does not match the filter value is still returned. -/
theorem get_alerts_empty_priority_counterexample :
    queriedIds (getAlerts ⟨saveAlerts [] "ATLAS" "t0"
        [newAlert "i0" "t0" "ATLAS" "FORGE" "s" "p" "/m0" "NORMAL"], 0⟩
      "ATLAS" false (some "")) = .ok ["i0"] ∧
    (newAlert "i0" "t0" "ATLAS" "FORGE" "s" "p" "/m0" "NORMAL").priority ≠ pyUpper "" ∧
    (some "" : Option String) ≠ none :=
  ⟨rfl, by decide, by decide⟩

set_option maxRecDepth 40000 in
/-- Witness for C9: with one read and one unread alert, the unread-only
query returns exactly the unread one. -/
theorem get_alerts_spec_witness :
    ∃ out, getAlerts ⟨saveAlerts [] "ATLAS" "t0"
        [{ newAlert "i1" "t1" "ATLAS" "F" "s" "p" "/s1" "NORMAL" with read := true },
         newAlert "i2" "t2" "ATLAS" "F" "s" "p" "/s2" "NORMAL"], 0⟩
      "ATLAS" true none
      = .ok (out, ⟨saveAlerts [] "ATLAS" "t0"
        [{ newAlert "i1" "t1" "ATLAS" "F" "s" "p" "/s1" "NORMAL" with read := true },
         newAlert "i2" "t2" "ATLAS" "F" "s" "p" "/s2" "NORMAL"], 0⟩) ∧
      out.Perm [newAlert "i2" "t2" "ATLAS" "F" "s" "p" "/s2" "NORMAL"] := by
  obtain ⟨out, h1, h2, _, _⟩ := get_alerts_spec ⟨saveAlerts [] "ATLAS" "t0"
      [{ newAlert "i1" "t1" "ATLAS" "F" "s" "p" "/s1" "NORMAL" with read := true },
       newAlert "i2" "t2" "ATLAS" "F" "s" "p" "/s2" "NORMAL"], 0⟩ "ATLAS"
    [{ newAlert "i1" "t1" "ATLAS" "F" "s" "p" "/s1" "NORMAL" with read := true },
     newAlert "i2" "t2" "ATLAS" "F" "s" "p" "/s2" "NORMAL"] rfl true none
  exact ⟨out, h1, h2⟩
